import Mathlib

/-!
# Verification of `create_vibrations_profile` (klippain-shaketune)

Shallow embedding of `src/shaketune/commands/create_vibrations_profile.py`.

The command is modelled as a pure function from its G-code arguments and a
printer-state record to the trace of machine-visible effects it issues
(velocity-limit writes, toolhead moves, dwells, queue drains, accelerometer
recording start/stop) together with an optional error, mirroring the Python
control flow statement by statement.

Numeric values are embedded as exact rationals (`ℚ`).  The floating-point
library calls `math.cos`/`math.sin` (applied to `math.radians(angle)`) are
passed in as oracle parameters `cosd sind : ℚ → ℚ` mapping the angle in
degrees to the cosine/sine value: none of the trace-level properties depend
on the actual trigonometric values.  A separate real-valued embedding of the
endpoint geometry (using `Real.cos`/`Real.sin`) is given further below for
the geometric reflection property.

The recording name `f'vib_an{angle:.2f}sp{speed:.2f}'.replace('.', '_')` is
abstracted as the pair (angle, speed) carried by the start event together
with the `append_time=True` flag; no claim depends on the string rendering.
The console printing and the post-processing hand-off
(`creator.configure` / `st_process.run` / `wait_for_completion`) issue no
machine-state effects and are not part of the trace.
-/

/-- Module-level constant `MIN_SPEED = 2  # mm/s`. -/
def MIN_SPEED : ℚ := 2

/-- The G-code arguments of the command, as read by `gcmd.get_float` /
`gcmd.get_int` / `gcmd.get` at the top of `create_vibrations_profile`.
The klippy argument parser enforces the `minval` bounds (SIZE ≥ 50,
MAX_SPEED ≥ 10, SPEED_INCREMENT ≥ 1, ACCEL ≥ 100, TRAVEL_SPEED ≥ 20);
theorems that need a bound take it as a hypothesis. -/
structure GCmdArgs where
  size : ℚ
  z_height : ℚ
  max_speed : ℚ
  speed_increment : ℚ
  accel : ℤ
  feedrate_travel : ℚ
  accel_chip : Option String

/-- The printer-side state the command reads: kinematics family string,
presence of the `input_shaper` object, the toolhead status snapshot
(`max_accel`, `square_corner_velocity`, and `mcr` for the optional
`minimum_cruise_ratio` entry, `none` when the status dict lacks the key),
the kinematics bounding box, the current toolhead position `(X, Y, Z, E)`,
the axis→accelerometer-chip resolution
(`Accelerometer.find_axis_accelerometer`), and which printer objects exist
(`printer.lookup_object`). -/
structure PrinterState where
  kinematics : String
  hasInputShaper : Bool
  max_accel : ℚ
  square_corner_velocity : ℚ
  mcr : Option ℚ
  axis_min_x : ℚ
  axis_max_x : ℚ
  axis_min_y : ℚ
  axis_max_y : ℚ
  posX : ℚ
  posY : ℚ
  posZ : ℚ
  posE : ℚ
  findAxisAccelerometer : String → Option String
  hasObject : String → Bool

/-- Machine-visible effects issued by the command, in program order.
`setVelocityLimit` is a `SET_VELOCITY_LIMIT` G-code script run
(`mcr = none` when no `MINIMUM_CRUISE_RATIO` parameter is passed);
`move` is `toolhead.move([x, y, z, e], feedrate)`;
`startRecording` carries the (angle, speed) pair encoded in the recording
name plus the `append_time` flag. -/
inductive Event where
  | setVelocityLimit (accel : ℚ) (mcr : Option ℚ) (sqv : ℚ)
  | move (x y z e feedrate : ℚ)
  | dwell (t : ℚ)
  | waitMoves
  | startRecording (angle : ℤ) (speed : ℚ) (appendTime : Bool)
  | stopRecording
deriving DecidableEq

/-- The `raise gcmd.error(...)` sites of the command. -/
inductive SweepError where
  | sizeTooSmall
  | inputShaperNotConfigured
  | unsupportedKinematics
  | accelerometerNotFound (chip : Option String)
deriving DecidableEq

/-- Python `int()` on a float: truncation toward zero. -/
def pyInt (q : ℚ) : ℤ := if 0 ≤ q then ⌊q⌋ else ⌈q⌉

/-- The kinematics → principal-angles dispatch (lines 50–57):
`{'cartesian', 'corexz'} → [0, 90]`, `'corexy' → [45, 135]`,
anything else is the unsupported-kinematics error (`none` here). -/
def mainAngles (kin : String) : Option (List ℤ) :=
  if kin = "cartesian" ∨ kin = "corexz" then some [0, 90]
  else if kin = "corexy" then some [45, 135]
  else none

/-- Lines 93–94: `angle_to_axis = {0: 'x', 90: 'y'}` read with
`.get(curr_angle, 'xy')`. -/
def angleToAxis (a : ℤ) : String :=
  if a = 0 then "x" else if a = 90 then "y" else "xy"

/-- Line 86: `nb_speed_samples = int((max_speed - MIN_SPEED) / speed_increment + 1)`. -/
def nbSpeedSamples (args : GCmdArgs) : ℤ :=
  pyInt ((args.max_speed - MIN_SPEED) / args.speed_increment + 1)

/-- Line 106: `curr_speed = MIN_SPEED + curr_speed_sample * speed_increment`. -/
def speedAt (args : GCmdArgs) (i : ℕ) : ℚ :=
  MIN_SPEED + (i : ℚ) * args.speed_increment

/-- Lines 113–116: `1 / 5 + 4 / 5 * curr_speed / 100` below 100 mm/s,
`1` at or above. -/
def segment_length_multiplier (s : ℚ) : ℚ :=
  if s < 100 then 1 / 5 + 4 / 5 * s / 100 else 1

/-- Lines 125–129: `movements = 3`, overridden to `1` below 150 mm/s and to
`2` in `[150, 250)`. -/
def movements (s : ℚ) : ℕ :=
  if s < 150 then 1 else if s < 250 then 2 else 3

/-- Lines 31–32: an explicitly passed empty `ACCEL_CHIP` is normalised to
absent. -/
def normChip (args : GCmdArgs) : Option String :=
  match args.accel_chip with
  | some s => if s = "" then none else some s
  | none => none

/-- Chip resolution for one angle (lines 93–97): the manually specified
chip is retained, otherwise `Accelerometer.find_axis_accelerometer` is
queried with the axis hint. -/
def resolveChip (p : PrinterState) (accelChip : Option String) (angle : ℤ) :
    Option String :=
  match accelChip with
  | some c => some c
  | none => p.findAxisAccelerometer (angleToAxis angle)

/-- Line 75: `mid_x = (axis_minimum.x + axis_maximum.x) / 2`. -/
def midX (p : PrinterState) : ℚ := (p.axis_min_x + p.axis_max_x) / 2

/-- Line 76: `mid_y = (axis_minimum.y + axis_maximum.y) / 2`. -/
def midY (p : PrinterState) : ℚ := (p.axis_min_y + p.axis_max_y) / 2

/-- Lines 65–72: the test-limit `SET_VELOCITY_LIMIT` script:
`ACCEL={accel} SQUARE_CORNER_VELOCITY=5.0`, with `MINIMUM_CRUISE_RATIO=0`
added exactly when the status snapshot exposes the field. -/
def applyLimitsEvt (args : GCmdArgs) (p : PrinterState) : Event :=
  Event.setVelocityLimit (args.accel : ℚ) (p.mcr.map (fun _ => 0)) 5

/-- Lines 143–148: the restore `SET_VELOCITY_LIMIT` script:
`ACCEL={old_accel} SQUARE_CORNER_VELOCITY={old_sqv}`, with
`MINIMUM_CRUISE_RATIO={old_mcr}` added exactly when `old_mcr` had been
captured. -/
def restoreLimitsEvt (p : PrinterState) : Event :=
  Event.setVelocityLimit p.max_accel p.mcr p.square_corner_velocity

/-- Lines 60–82: the effects between the snapshot and the angle loop: the
test-limit script, the raise to `z_height` at a tenth of the travel
feedrate, the travel move near the bed centre, and the half-second dwell. -/
def preEvents (args : GCmdArgs) (p : PrinterState) : List Event :=
  [applyLimitsEvt args p,
   Event.move p.posX p.posY args.z_height p.posE (args.feedrate_travel / 10),
   Event.move (midX p - 15) (midY p - 15) args.z_height p.posE args.feedrate_travel,
   Event.dwell (1 / 2)]

/-- The events of one speed sample (loop body, lines 105–140): approach
move to the start point at the travel feedrate, recording start, the
back-and-forth pairs at the test speed, recording stop, settle dwell,
queue drain. -/
def sampleEvents (args : GCmdArgs) (p : PrinterState) (cosd sind : ℚ → ℚ)
    (mid_x mid_y : ℚ) (angle : ℤ) (i : ℕ) : List Event :=
  let s := speedAt args i
  let mult := segment_length_multiplier s
  let dX := args.size / 2 * cosd (angle : ℚ) * mult
  let dY := args.size / 2 * sind (angle : ℚ) * mult
  [Event.move (mid_x - dX) (mid_y - dY) args.z_height p.posE args.feedrate_travel,
   Event.startRecording angle s true]
  ++ (List.range (movements s)).flatMap (fun _ =>
      [Event.move (mid_x + dX) (mid_y + dY) args.z_height p.posE s,
       Event.move (mid_x - dX) (mid_y - dY) args.z_height p.posE s])
  ++ [Event.stopRecording, Event.dwell (3 / 10), Event.waitMoves]

/-- One angle iteration (lines 87–140): resolve the accelerometer chip —
failing with the accelerometer-not-found error if it resolves to nothing or
to a printer object that does not exist — then run every speed sample. -/
def angleTrace (args : GCmdArgs) (p : PrinterState) (cosd sind : ℚ → ℚ)
    (accelChip : Option String) (mid_x mid_y : ℚ) (angle : ℤ) :
    List Event × Option SweepError :=
  match resolveChip p accelChip angle with
  | none => ([], some (SweepError.accelerometerNotFound none))
  | some c =>
    if p.hasObject c then
      ((List.range (nbSpeedSamples args).toNat).flatMap
        (sampleEvents args p cosd sind mid_x mid_y angle), none)
    else ([], some (SweepError.accelerometerNotFound (some c)))

/-- The angle loop: traces accumulate in order; the first error aborts the
remaining angles (a raised exception propagates out of the loop). -/
def anglesTrace (args : GCmdArgs) (p : PrinterState) (cosd sind : ℚ → ℚ)
    (accelChip : Option String) (mid_x mid_y : ℚ) :
    List ℤ → List Event × Option SweepError
  | [] => ([], none)
  | a :: rest =>
    match angleTrace args p cosd sind accelChip mid_x mid_y a with
    | (tr, some e) => (tr, some e)
    | (tr, none) =>
      let r := anglesTrace args p cosd sind accelChip mid_x mid_y rest
      (tr ++ r.1, r.2)

/-- The whole command: trace of machine-visible effects plus the error that
aborted it, if any.  Mirrors the source top to bottom: `ACCEL_CHIP` empty
string normalised to `None`; size/speed validation (line 34);
`input_shaper` presence check (line 46); kinematics dispatch (lines 50–57);
toolhead status snapshot, test-limit application, start-position moves and
dwell (lines 60–82); the angle × speed double loop (lines 87–140); the
restore `SET_VELOCITY_LIMIT` followed by `wait_moves` (lines 143–149) — the
restore is reached only when the loop completes without raising, exactly as
in the source, which has no try/finally. -/
def run (args : GCmdArgs) (p : PrinterState) (cosd sind : ℚ → ℚ) :
    List Event × Option SweepError :=
  if args.size / (args.max_speed / 60) < 1 / 4 then
    ([], some SweepError.sizeTooSmall)
  else if p.hasInputShaper = false then
    ([], some SweepError.inputShaperNotConfigured)
  else
    match mainAngles p.kinematics with
    | none => ([], some SweepError.unsupportedKinematics)
    | some angles =>
      match anglesTrace args p cosd sind (normChip args) (midX p) (midY p) angles with
      | (body, some e) => (preEvents args p ++ body, some e)
      | (body, none) =>
        (preEvents args p ++ body ++ [restoreLimitsEvt p, Event.waitMoves], none)

/-- Number of `SET_VELOCITY_LIMIT` scripts in a trace. -/
def countSVL : List Event → ℕ
  | [] => 0
  | Event.setVelocityLimit _ _ _ :: rest => countSVL rest + 1
  | _ :: rest => countSVL rest

/-- The `SET_VELOCITY_LIMIT` scripts of a trace, in order. -/
def svlEvents : List Event → List Event
  | [] => []
  | Event.setVelocityLimit a m q :: rest =>
      Event.setVelocityLimit a m q :: svlEvents rest
  | _ :: rest => svlEvents rest

/-- Recording-bracket scanner: walks a trace tracking how many recordings
are open; `startRecording` is legal only at depth 0, `stopRecording` only
at depth 1 (`none` on violation).  `recScan 0 tr = some 0` states that
starts and stops strictly alternate beginning with a start, at most one
recording is ever open, and every recording is closed. -/
def recScan : ℕ → List Event → Option ℕ
  | d, [] => some d
  | d, Event.startRecording _ _ _ :: rest =>
      if d = 0 then recScan 1 rest else none
  | d, Event.stopRecording :: rest =>
      if d = 1 then recScan 0 rest else none
  | d, _ :: rest => recScan d rest

/-- Whether an error is a ValidationError in the sense of the spec's §7
taxonomy (insufficient travel distance, unsupported kinematics, missing
input-shaper prerequisite); a missing accelerometer is ResourceNotFound. -/
def isValidationError : SweepError → Bool
  | SweepError.sizeTooSmall => true
  | SweepError.inputShaperNotConfigured => true
  | SweepError.unsupportedKinematics => true
  | SweepError.accelerometerNotFound _ => false

/-! ## Concrete fixtures for witnesses and counterexamples -/

/-- A valid argument set: SIZE=100, Z_HEIGHT=20, MAX_SPEED=10,
SPEED_INCREMENT=8 (two speed samples: 2 and 10 mm/s), ACCEL=3000,
TRAVEL_SPEED=120, no ACCEL_CHIP. -/
def okArgs : GCmdArgs :=
  { size := 100, z_height := 20, max_speed := 10, speed_increment := 8,
    accel := 3000, feedrate_travel := 120, accel_chip := none }

/-- A cartesian printer with every object present and
`minimum_cruise_ratio` exposed at 1/2. -/
def okPrinter : PrinterState :=
  { kinematics := "cartesian", hasInputShaper := true, max_accel := 7000,
    square_corner_velocity := 8, mcr := some (1 / 2),
    axis_min_x := 0, axis_max_x := 300, axis_min_y := 0, axis_max_y := 300,
    posX := 10, posY := 10, posZ := 5, posE := 1,
    findAxisAccelerometer := fun _ => some "adxl345",
    hasObject := fun _ => true }

/-- The printer `okPrinter` on an older Klipper: `minimum_cruise_ratio`
absent from the status snapshot. -/
def noMcrPrinter : PrinterState :=
  { okPrinter with mcr := none }

/-- The printer `okPrinter` with no accelerometer resolvable for any axis. -/
def noChipPrinter : PrinterState :=
  { okPrinter with findAxisAccelerometer := fun _ => none }

/-- The printer `okPrinter` with delta kinematics (unsupported). -/
def deltaPrinter : PrinterState :=
  { okPrinter with kinematics := "delta" }

/-- Trigonometric oracle used in concrete runs (its value is irrelevant to
every trace-level property). -/
def cosdFix : ℚ → ℚ := fun _ => 1

/-- Trigonometric oracle used in concrete runs. -/
def sindFix : ℚ → ℚ := fun _ => 0

/-- Embedding of `math.radians`: degrees to radians. -/
noncomputable def radiansDeg (d : ℝ) : ℝ := d * Real.pi / 180

/-- Line 119: `dX = (size / 2) * math.cos(radian_angle) * segment_length_multiplier`,
over the reals. -/
noncomputable def dXr (size angle mult : ℝ) : ℝ :=
  size / 2 * Real.cos (radiansDeg angle) * mult

/-- Line 120: `dY = (size / 2) * math.sin(radian_angle) * segment_length_multiplier`,
over the reals. -/
noncomputable def dYr (size angle mult : ℝ) : ℝ :=
  size / 2 * Real.sin (radiansDeg angle) * mult

/-- Line 135: the endpoint `(mid_x + dX, mid_y + dY)` of the back-and-forth
segment. -/
def endpointPlus (mx my dx dy : ℝ) : ℝ × ℝ := (mx + dx, my + dy)

/-- Lines 121/136: the endpoint `(mid_x - dX, mid_y - dY)`. -/
def endpointMinus (mx my dx dy : ℝ) : ℝ × ℝ := (mx - dx, my - dy)

/-- Arguments violating the travel-time constraint: SIZE=50 (the minimum)
with MAX_SPEED=12001 gives `50 / (12001 / 60) < 1/4`. -/
def badArgs : GCmdArgs :=
  { size := 50, z_height := 20, max_speed := 12001, speed_increment := 2,
    accel := 3000, feedrate_travel := 120, accel_chip := none }

/-- Whether an event is a `SET_VELOCITY_LIMIT` script. -/
def isSVL : Event → Bool
  | Event.setVelocityLimit _ _ _ => true
  | _ => false

/-- Moves whose Z is `zq` and whose E is `eq`; every other event passes. -/
def moveFixed (zq ee : ℚ) : Event → Bool
  | Event.move _ _ z e _ => decide (z = zq ∧ e = ee)
  | _ => true


/-! ## Helper lemmas on traces -/

/-- Events that leave the recording bracket depth unchanged. -/
def recNeutral : Event → Bool
  | Event.startRecording _ _ _ => false
  | Event.stopRecording => false
  | _ => true

/-- Number of `startRecording` events in a trace. -/
def countStarts : List Event → ℕ
  | [] => 0
  | Event.startRecording _ _ _ :: rest => countStarts rest + 1
  | _ :: rest => countStarts rest

/-- Number of `stopRecording` events in a trace. -/
def countStops : List Event → ℕ
  | [] => 0
  | Event.stopRecording :: rest => countStops rest + 1
  | _ :: rest => countStops rest

theorem recScan_append (a b : List Event) : ∀ d : ℕ,
    recScan d (a ++ b) = (recScan d a).bind fun q => recScan q b := by
  induction a with
  | nil => intro d; rfl
  | cons ev rest ih =>
    intro d
    cases ev with
    | setVelocityLimit x y z => simpa [recScan] using ih d
    | move x y z e f => simpa [recScan] using ih d
    | dwell t => simpa [recScan] using ih d
    | waitMoves => simpa [recScan] using ih d
    | startRecording x y z =>
        by_cases h : d = 0 <;> simp [recScan, h, ih]
    | stopRecording =>
        by_cases h : d = 1 <;> simp [recScan, h, ih]

theorem recScan_neutral (l : List Event) (h : ∀ e ∈ l, recNeutral e = true) :
    ∀ d : ℕ, recScan d l = some d := by
  induction l with
  | nil => intro d; rfl
  | cons ev rest ih =>
    intro d
    have he := h ev (List.mem_cons_self ev rest)
    have hrest : ∀ e ∈ rest, recNeutral e = true :=
      fun e hx => h e (List.mem_cons_of_mem _ hx)
    cases ev with
    | startRecording x y z => simp [recNeutral] at he
    | stopRecording => simp [recNeutral] at he
    | setVelocityLimit x y z => simp [recScan, ih hrest]
    | move x y z e f => simp [recScan, ih hrest]
    | dwell t => simp [recScan, ih hrest]
    | waitMoves => simp [recScan, ih hrest]

theorem recScan_flatMap {α : Type} (l : List α) (f : α → List Event)
    (h : ∀ x ∈ l, recScan 0 (f x) = some 0) :
    recScan 0 (l.flatMap f) = some 0 := by
  induction l with
  | nil => rfl
  | cons a rest ih =>
    rw [List.flatMap_cons, recScan_append, h a (List.mem_cons_self a rest),
      Option.some_bind]
    exact ih (fun x hx => h x (List.mem_cons_of_mem _ hx))

theorem recScan_pairs (n : ℕ) (e1 e2 : Event)
    (h1 : recNeutral e1 = true) (h2 : recNeutral e2 = true) (d : ℕ) :
    recScan d ((List.range n).flatMap (fun _ => [e1, e2])) = some d := by
  apply recScan_neutral
  intro e he
  rcases List.mem_flatMap.mp he with ⟨x, _, hx⟩
  simp only [List.mem_cons, List.not_mem_nil, or_false] at hx
  rcases hx with rfl | rfl <;> assumption

theorem recScan_sampleEvents (args : GCmdArgs) (p : PrinterState)
    (cosd sind : ℚ → ℚ) (mx my : ℚ) (angle : ℤ) (i : ℕ) :
    recScan 0 (sampleEvents args p cosd sind mx my angle i) = some 0 := by
  unfold sampleEvents
  simp only [List.cons_append, List.nil_append]
  simp only [recScan, if_pos rfl]
  rw [recScan_append, recScan_pairs]
  · rfl
  · rfl
  · rfl

theorem recScan_angleTrace (args : GCmdArgs) (p : PrinterState)
    (cosd sind : ℚ → ℚ) (chip : Option String) (mx my : ℚ) (angle : ℤ) :
    recScan 0 (angleTrace args p cosd sind chip mx my angle).1 = some 0 := by
  unfold angleTrace
  cases resolveChip p chip angle with
  | none => rfl
  | some c =>
    by_cases h : p.hasObject c
    · simp only [h, if_true]
      exact recScan_flatMap _ _
        (fun x _ => recScan_sampleEvents args p cosd sind mx my angle x)
    · simp only [h, if_false]
      rfl

theorem recScan_anglesTrace (args : GCmdArgs) (p : PrinterState)
    (cosd sind : ℚ → ℚ) (chip : Option String) (mx my : ℚ) :
    ∀ L : List ℤ,
      recScan 0 (anglesTrace args p cosd sind chip mx my L).1 = some 0 := by
  intro L
  induction L with
  | nil => rfl
  | cons a rest ih =>
    have ha := recScan_angleTrace args p cosd sind chip mx my a
    unfold anglesTrace
    cases hA : angleTrace args p cosd sind chip mx my a with
    | mk tr err =>
      rw [hA] at ha
      cases err with
      | some e => exact ha
      | none =>
        simp only
        rw [recScan_append, ha, Option.some_bind]
        exact ih

theorem recScan_preEvents (args : GCmdArgs) (p : PrinterState) :
    recScan 0 (preEvents args p) = some 0 := rfl

theorem run_eq_sizeErr (args : GCmdArgs) (p : PrinterState) (cosd sind : ℚ → ℚ)
    (h1 : args.size / (args.max_speed / 60) < 1 / 4) :
    run args p cosd sind = ([], some SweepError.sizeTooSmall) := by
  unfold run
  rw [if_pos h1]

theorem run_eq_noShaper (args : GCmdArgs) (p : PrinterState) (cosd sind : ℚ → ℚ)
    (h1 : ¬ args.size / (args.max_speed / 60) < 1 / 4)
    (h2 : p.hasInputShaper = false) :
    run args p cosd sind = ([], some SweepError.inputShaperNotConfigured) := by
  unfold run
  rw [if_neg h1, if_pos h2]

theorem run_eq_badKin (args : GCmdArgs) (p : PrinterState) (cosd sind : ℚ → ℚ)
    (h1 : ¬ args.size / (args.max_speed / 60) < 1 / 4)
    (h2 : p.hasInputShaper = true)
    (hk : mainAngles p.kinematics = none) :
    run args p cosd sind = ([], some SweepError.unsupportedKinematics) := by
  unfold run
  rw [if_neg h1, if_neg (by simp [h2]), hk]

theorem run_eq_ok (args : GCmdArgs) (p : PrinterState) (cosd sind : ℚ → ℚ)
    (h1 : ¬ args.size / (args.max_speed / 60) < 1 / 4)
    (h2 : p.hasInputShaper = true)
    (angles : List ℤ) (hk : mainAngles p.kinematics = some angles) :
    run args p cosd sind =
      match anglesTrace args p cosd sind (normChip args) (midX p) (midY p) angles with
      | (body, some e) => (preEvents args p ++ body, some e)
      | (body, none) =>
          (preEvents args p ++ body ++ [restoreLimitsEvt p, Event.waitMoves], none) := by
  unfold run
  rw [if_neg h1, if_neg (by simp [h2]), hk]

theorem recScan_run (args : GCmdArgs) (p : PrinterState) (cosd sind : ℚ → ℚ) :
    recScan 0 (run args p cosd sind).1 = some 0 := by
  by_cases h1 : args.size / (args.max_speed / 60) < 1 / 4
  · rw [run_eq_sizeErr args p cosd sind h1]; rfl
  by_cases h2 : p.hasInputShaper = false
  · rw [run_eq_noShaper args p cosd sind h1 h2]; rfl
  have h2' : p.hasInputShaper = true := by
    cases h : p.hasInputShaper
    · exact absurd h h2
    · rfl
  cases hk : mainAngles p.kinematics with
  | none => rw [run_eq_badKin args p cosd sind h1 h2' hk]; rfl
  | some angles =>
    rw [run_eq_ok args p cosd sind h1 h2' angles hk]
    have hb := recScan_anglesTrace args p cosd sind (normChip args) (midX p) (midY p) angles
    cases hA : anglesTrace args p cosd sind (normChip args) (midX p) (midY p) angles with
    | mk body err =>
      rw [hA] at hb
      cases err with
      | some e =>
        simp only
        rw [recScan_append, recScan_preEvents, Option.some_bind]
        exact hb
      | none =>
        simp only
        rw [List.append_assoc, recScan_append, recScan_preEvents,
          Option.some_bind, recScan_append, hb, Option.some_bind]
        rfl

theorem recScan_counts :
    ∀ (l : List Event) (d q : ℕ), recScan d l = some q →
      d + countStarts l = q + countStops l := by
  intro l
  induction l with
  | nil =>
    intro d q h
    simp only [recScan, Option.some_inj] at h
    simp [countStarts, countStops, h]
  | cons ev rest ih =>
    intro d q h
    cases ev with
    | startRecording x y z =>
      simp only [recScan] at h
      by_cases hd : d = 0
      · rw [if_pos hd] at h
        have := ih 1 q h
        simp only [countStarts, countStops, hd]
        omega
      · rw [if_neg hd] at h
        cases h
    | stopRecording =>
      simp only [recScan] at h
      by_cases hd : d = 1
      · rw [if_pos hd] at h
        have := ih 0 q h
        simp only [countStarts, countStops, hd]
        omega
      · rw [if_neg hd] at h
        cases h
    | setVelocityLimit x y z =>
      simp only [recScan] at h
      have := ih d q h
      simp only [countStarts, countStops]
      omega
    | move x y z e f =>
      simp only [recScan] at h
      have := ih d q h
      simp only [countStarts, countStops]
      omega
    | dwell t =>
      simp only [recScan] at h
      have := ih d q h
      simp only [countStarts, countStops]
      omega
    | waitMoves =>
      simp only [recScan] at h
      have := ih d q h
      simp only [countStarts, countStops]
      omega

theorem svlEvents_append (a b : List Event) :
    svlEvents (a ++ b) = svlEvents a ++ svlEvents b := by
  induction a with
  | nil => rfl
  | cons ev rest ih => cases ev <;> simp [svlEvents, ih]

theorem svlEvents_nil (l : List Event) (h : ∀ e ∈ l, isSVL e = false) :
    svlEvents l = [] := by
  induction l with
  | nil => rfl
  | cons ev rest ih =>
    have he := h ev (List.mem_cons_self ev rest)
    have hrest : ∀ e ∈ rest, isSVL e = false :=
      fun e hx => h e (List.mem_cons_of_mem _ hx)
    cases ev with
    | setVelocityLimit x y z => simp [isSVL] at he
    | move x y z e f => simp [svlEvents, ih hrest]
    | dwell t => simp [svlEvents, ih hrest]
    | waitMoves => simp [svlEvents, ih hrest]
    | startRecording x y z => simp [svlEvents, ih hrest]
    | stopRecording => simp [svlEvents, ih hrest]

theorem svlEvents_flatMap {α : Type} (l : List α) (f : α → List Event)
    (h : ∀ x ∈ l, svlEvents (f x) = []) :
    svlEvents (l.flatMap f) = [] := by
  induction l with
  | nil => rfl
  | cons a rest ih =>
    rw [List.flatMap_cons, svlEvents_append, h a (List.mem_cons_self a rest),
      List.nil_append]
    exact ih (fun x hx => h x (List.mem_cons_of_mem _ hx))

theorem svlEvents_sampleEvents (args : GCmdArgs) (p : PrinterState)
    (cosd sind : ℚ → ℚ) (mx my : ℚ) (angle : ℤ) (i : ℕ) :
    svlEvents (sampleEvents args p cosd sind mx my angle i) = [] := by
  unfold sampleEvents
  simp only [List.cons_append, List.nil_append]
  simp only [svlEvents]
  rw [svlEvents_append]
  have hflat := svlEvents_nil
    ((List.range (movements (speedAt args i))).flatMap (fun _ =>
      [Event.move (mx + args.size / 2 * cosd (angle : ℚ) * segment_length_multiplier (speedAt args i))
        (my + args.size / 2 * sind (angle : ℚ) * segment_length_multiplier (speedAt args i))
        args.z_height p.posE (speedAt args i),
       Event.move (mx - args.size / 2 * cosd (angle : ℚ) * segment_length_multiplier (speedAt args i))
        (my - args.size / 2 * sind (angle : ℚ) * segment_length_multiplier (speedAt args i))
        args.z_height p.posE (speedAt args i)]))
  rw [hflat]
  · rfl
  · intro e he
    rcases List.mem_flatMap.mp he with ⟨x, _, hx⟩
    simp only [List.mem_cons, List.not_mem_nil, or_false] at hx
    rcases hx with rfl | rfl <;> rfl

theorem svlEvents_angleTrace (args : GCmdArgs) (p : PrinterState)
    (cosd sind : ℚ → ℚ) (chip : Option String) (mx my : ℚ) (angle : ℤ) :
    svlEvents (angleTrace args p cosd sind chip mx my angle).1 = [] := by
  unfold angleTrace
  cases resolveChip p chip angle with
  | none => rfl
  | some c =>
    by_cases h : p.hasObject c
    · simp only [h, if_true]
      exact svlEvents_flatMap _ _
        (fun x _ => svlEvents_sampleEvents args p cosd sind mx my angle x)
    · simp only [h, if_false]
      rfl

theorem svlEvents_anglesTrace (args : GCmdArgs) (p : PrinterState)
    (cosd sind : ℚ → ℚ) (chip : Option String) (mx my : ℚ) :
    ∀ L : List ℤ,
      svlEvents (anglesTrace args p cosd sind chip mx my L).1 = [] := by
  intro L
  induction L with
  | nil => rfl
  | cons a rest ih =>
    have ha := svlEvents_angleTrace args p cosd sind chip mx my a
    unfold anglesTrace
    cases hA : angleTrace args p cosd sind chip mx my a with
    | mk tr err =>
      rw [hA] at ha
      cases err with
      | some e => exact ha
      | none =>
        simp only
        rw [svlEvents_append, ha, List.nil_append]
        exact ih

theorem svlEvents_preEvents (args : GCmdArgs) (p : PrinterState) :
    svlEvents (preEvents args p) = [applyLimitsEvt args p] := by
  unfold preEvents applyLimitsEvt
  rfl

theorem svl_run_ok (args : GCmdArgs) (p : PrinterState) (cosd sind : ℚ → ℚ)
    (h : (run args p cosd sind).2 = none) :
    svlEvents (run args p cosd sind).1 =
      [applyLimitsEvt args p, restoreLimitsEvt p] := by
  by_cases h1 : args.size / (args.max_speed / 60) < 1 / 4
  · rw [run_eq_sizeErr args p cosd sind h1] at h
    simp at h
  by_cases h2 : p.hasInputShaper = false
  · rw [run_eq_noShaper args p cosd sind h1 h2] at h
    simp at h
  have h2' : p.hasInputShaper = true := by
    cases hb : p.hasInputShaper
    · exact absurd hb h2
    · rfl
  cases hk : mainAngles p.kinematics with
  | none =>
    rw [run_eq_badKin args p cosd sind h1 h2' hk] at h
    simp at h
  | some angles =>
    rw [run_eq_ok args p cosd sind h1 h2' angles hk] at h ⊢
    have hbody := svlEvents_anglesTrace args p cosd sind (normChip args) (midX p) (midY p) angles
    cases hA : anglesTrace args p cosd sind (normChip args) (midX p) (midY p) angles with
    | mk body err =>
      cases err with
      | some e =>
        rw [hA] at h
        simp at h
      | none =>
        rw [hA] at hbody
        simp only at hbody
        show svlEvents (preEvents args p ++ body ++ [restoreLimitsEvt p, Event.waitMoves]) = _
        rw [List.append_assoc, svlEvents_append, svlEvents_preEvents,
          svlEvents_append, hbody, List.nil_append]
        rfl

theorem svl_run_accelErr (args : GCmdArgs) (p : PrinterState)
    (cosd sind : ℚ → ℚ) (c : Option String)
    (h : (run args p cosd sind).2 = some (SweepError.accelerometerNotFound c)) :
    svlEvents (run args p cosd sind).1 = [applyLimitsEvt args p] := by
  by_cases h1 : args.size / (args.max_speed / 60) < 1 / 4
  · rw [run_eq_sizeErr args p cosd sind h1] at h
    simp at h
  by_cases h2 : p.hasInputShaper = false
  · rw [run_eq_noShaper args p cosd sind h1 h2] at h
    simp at h
  have h2' : p.hasInputShaper = true := by
    cases hb : p.hasInputShaper
    · exact absurd hb h2
    · rfl
  cases hk : mainAngles p.kinematics with
  | none =>
    rw [run_eq_badKin args p cosd sind h1 h2' hk] at h
    simp at h
  | some angles =>
    rw [run_eq_ok args p cosd sind h1 h2' angles hk] at h ⊢
    have hbody := svlEvents_anglesTrace args p cosd sind (normChip args) (midX p) (midY p) angles
    cases hA : anglesTrace args p cosd sind (normChip args) (midX p) (midY p) angles with
    | mk body err =>
      cases err with
      | some e =>
        rw [hA] at hbody
        simp only at hbody
        show svlEvents (preEvents args p ++ body) = _
        rw [svlEvents_append, svlEvents_preEvents, hbody, List.append_nil]
      | none =>
        rw [hA] at h
        simp at h

theorem svl_run_cases (args : GCmdArgs) (p : PrinterState) (cosd sind : ℚ → ℚ) :
    svlEvents (run args p cosd sind).1 = [] ∨
    svlEvents (run args p cosd sind).1 = [applyLimitsEvt args p] ∨
    svlEvents (run args p cosd sind).1 =
      [applyLimitsEvt args p, restoreLimitsEvt p] := by
  by_cases h1 : args.size / (args.max_speed / 60) < 1 / 4
  · rw [run_eq_sizeErr args p cosd sind h1]
    left; rfl
  by_cases h2 : p.hasInputShaper = false
  · rw [run_eq_noShaper args p cosd sind h1 h2]
    left; rfl
  have h2' : p.hasInputShaper = true := by
    cases hb : p.hasInputShaper
    · exact absurd hb h2
    · rfl
  cases hk : mainAngles p.kinematics with
  | none =>
    rw [run_eq_badKin args p cosd sind h1 h2' hk]
    left; rfl
  | some angles =>
    rw [run_eq_ok args p cosd sind h1 h2' angles hk]
    have hbody := svlEvents_anglesTrace args p cosd sind (normChip args) (midX p) (midY p) angles
    cases hA : anglesTrace args p cosd sind (normChip args) (midX p) (midY p) angles with
    | mk body err =>
      rw [hA] at hbody
      simp only at hbody
      cases err with
      | some e =>
        right; left
        show svlEvents (preEvents args p ++ body) = _
        rw [svlEvents_append, svlEvents_preEvents, hbody, List.append_nil]
      | none =>
        right; right
        show svlEvents (preEvents args p ++ body ++ [restoreLimitsEvt p, Event.waitMoves]) = _
        rw [List.append_assoc, svlEvents_append, svlEvents_preEvents,
          svlEvents_append, hbody, List.nil_append]
        rfl

theorem mem_svlEvents (l : List Event) (a : ℚ) (m : Option ℚ) (q : ℚ)
    (h : Event.setVelocityLimit a m q ∈ l) :
    Event.setVelocityLimit a m q ∈ svlEvents l := by
  induction l with
  | nil => cases h
  | cons ev rest ih =>
    rcases List.mem_cons.mp h with h1 | h1
    · rw [← h1]
      simp [svlEvents]
    · cases ev with
      | setVelocityLimit x y z =>
        simp only [svlEvents, List.mem_cons]
        exact Or.inr (ih h1)
      | move x y z e f => simpa [svlEvents] using ih h1
      | dwell t => simpa [svlEvents] using ih h1
      | waitMoves => simpa [svlEvents] using ih h1
      | startRecording x y z => simpa [svlEvents] using ih h1
      | stopRecording => simpa [svlEvents] using ih h1

theorem moveFixed_sampleEvents (args : GCmdArgs) (p : PrinterState)
    (cosd sind : ℚ → ℚ) (mx my : ℚ) (angle : ℤ) (i : ℕ) :
    ∀ ev ∈ sampleEvents args p cosd sind mx my angle i,
      moveFixed args.z_height p.posE ev = true := by
  intro ev hev
  unfold sampleEvents at hev
  simp only [List.cons_append, List.nil_append, List.mem_cons,
    List.mem_append, List.mem_flatMap, List.not_mem_nil, or_false] at hev
  rcases hev with rfl | rfl | ⟨x, -, rfl | rfl⟩ | rfl | rfl | rfl
  · simp [moveFixed]
  · rfl
  · simp [moveFixed]
  · simp [moveFixed]
  · rfl
  · rfl
  · rfl

theorem moveFixed_angleTrace (args : GCmdArgs) (p : PrinterState)
    (cosd sind : ℚ → ℚ) (chip : Option String) (mx my : ℚ) (angle : ℤ) :
    ∀ ev ∈ (angleTrace args p cosd sind chip mx my angle).1,
      moveFixed args.z_height p.posE ev = true := by
  intro ev
  unfold angleTrace
  cases resolveChip p chip angle with
  | none =>
    intro hev
    simp at hev
  | some c =>
    intro hev
    simp only at hev
    by_cases h : p.hasObject c
    · rw [if_pos h] at hev
      simp only at hev
      rcases List.mem_flatMap.mp hev with ⟨x, _, hx⟩
      exact moveFixed_sampleEvents args p cosd sind mx my angle x ev hx
    · rw [if_neg h] at hev
      simp at hev

theorem moveFixed_anglesTrace (args : GCmdArgs) (p : PrinterState)
    (cosd sind : ℚ → ℚ) (chip : Option String) (mx my : ℚ) :
    ∀ L : List ℤ, ∀ ev ∈ (anglesTrace args p cosd sind chip mx my L).1,
      moveFixed args.z_height p.posE ev = true := by
  intro L
  induction L with
  | nil => intro ev hev; cases hev
  | cons a rest ih =>
    intro ev hev
    have ha := moveFixed_angleTrace args p cosd sind chip mx my a
    unfold anglesTrace at hev
    cases hA : angleTrace args p cosd sind chip mx my a with
    | mk tr err =>
      rw [hA] at hev ha
      cases err with
      | some e => exact ha ev hev
      | none =>
        simp only at hev ha
        rcases List.mem_append.mp hev with h | h
        · exact ha ev h
        · exact ih ev h

theorem moveFixed_run (args : GCmdArgs) (p : PrinterState) (cosd sind : ℚ → ℚ) :
    ∀ ev ∈ (run args p cosd sind).1,
      moveFixed args.z_height p.posE ev = true := by
  intro ev hev
  by_cases h1 : args.size / (args.max_speed / 60) < 1 / 4
  · rw [run_eq_sizeErr args p cosd sind h1] at hev
    cases hev
  by_cases h2 : p.hasInputShaper = false
  · rw [run_eq_noShaper args p cosd sind h1 h2] at hev
    cases hev
  have h2' : p.hasInputShaper = true := by
    cases hb : p.hasInputShaper
    · exact absurd hb h2
    · rfl
  cases hk : mainAngles p.kinematics with
  | none =>
    rw [run_eq_badKin args p cosd sind h1 h2' hk] at hev
    cases hev
  | some angles =>
    rw [run_eq_ok args p cosd sind h1 h2' angles hk] at hev
    have hbody := moveFixed_anglesTrace args p cosd sind (normChip args) (midX p) (midY p) angles
    cases hA : anglesTrace args p cosd sind (normChip args) (midX p) (midY p) angles with
    | mk body err =>
      rw [hA] at hev hbody
      have hpre : ∀ x ∈ preEvents args p, moveFixed args.z_height p.posE x = true := by
        intro x hx
        unfold preEvents at hx
        simp only [List.mem_cons, List.not_mem_nil, or_false] at hx
        rcases hx with rfl | rfl | rfl | rfl
        · rfl
        · simp [moveFixed]
        · simp [moveFixed]
        · rfl
      cases err with
      | some e =>
        simp only at hev hbody
        rcases List.mem_append.mp hev with h | h
        · exact hpre ev h
        · exact hbody ev h
      | none =>
        simp only at hev hbody
        rw [List.append_assoc] at hev
        rcases List.mem_append.mp hev with h | h
        · exact hpre ev h
        · rcases List.mem_append.mp h with h | h
          · exact hbody ev h
          · simp only [List.mem_cons, List.not_mem_nil, or_false] at h
            rcases h with rfl | rfl
            · rfl
            · rfl

/-- C3: for every speed sample, the segment-length scale factor equals
`1/5 + (4/5)·(speed/100)` when `speed < 100` and `1` otherwise; on speeds
below 100 it is strictly increasing, on nonnegative speeds it lies in
`(0, 1]`, and both branch expressions evaluate to `1` at `speed = 100`. -/
theorem C3_segment_length_multiplier :
    (∀ s : ℚ, s < 100 →
      segment_length_multiplier s = 1 / 5 + 4 / 5 * s / 100) ∧
    (∀ s : ℚ, 100 ≤ s → segment_length_multiplier s = 1) ∧
    (∀ s t : ℚ, s < t → t < 100 →
      segment_length_multiplier s < segment_length_multiplier t) ∧
    (∀ s : ℚ, 0 ≤ s →
      0 < segment_length_multiplier s ∧ segment_length_multiplier s ≤ 1) ∧
    (1 / 5 + 4 / 5 * (100 : ℚ) / 100 = 1 ∧ segment_length_multiplier 100 = 1) := by
  refine ⟨?_, ?_, ?_, ?_, by norm_num, ?_⟩
  · intro s hs
    unfold segment_length_multiplier
    rw [if_pos hs]
  · intro s hs
    unfold segment_length_multiplier
    rw [if_neg (not_lt.mpr hs)]
  · intro s t hst ht
    unfold segment_length_multiplier
    rw [if_pos (lt_trans hst ht), if_pos ht]
    linarith
  · intro s hs
    unfold segment_length_multiplier
    split_ifs with h
    · constructor <;> linarith
    · norm_num
  · unfold segment_length_multiplier
    norm_num

/-- C3 witness: concrete evaluations via the theorem. -/
theorem C3_witness :
    segment_length_multiplier 50 = 1 / 5 + 4 / 5 * 50 / 100 ∧
    segment_length_multiplier 150 = 1 ∧
    segment_length_multiplier 50 < segment_length_multiplier 60 ∧
    (0 < segment_length_multiplier 50 ∧ segment_length_multiplier 50 ≤ 1) := by
  have h := C3_segment_length_multiplier
  exact ⟨h.1 50 (by norm_num), h.2.1 150 (by norm_num),
    h.2.2.1 50 60 (by norm_num) (by norm_num), h.2.2.2.1 50 (by norm_num)⟩

/-- C4: the number of back-and-forth movement pairs is 1 below 150 mm/s,
2 in [150, 250), 3 at or above 250; the boundaries give 2 and 3, and the
count is monotonically non-decreasing in speed. -/
theorem C4_movements_bands :
    (∀ s : ℚ, s < 150 → movements s = 1) ∧
    (∀ s : ℚ, 150 ≤ s → s < 250 → movements s = 2) ∧
    (∀ s : ℚ, 250 ≤ s → movements s = 3) ∧
    movements 150 = 2 ∧
    movements 250 = 3 ∧
    (∀ s t : ℚ, s ≤ t → movements s ≤ movements t) := by
  refine ⟨?_, ?_, ?_, ?_, ?_, ?_⟩
  · intro s hs
    unfold movements
    rw [if_pos hs]
  · intro s h1 h2
    unfold movements
    rw [if_neg (not_lt.mpr h1), if_pos h2]
  · intro s hs
    unfold movements
    rw [if_neg (by linarith : ¬ s < 150), if_neg (by linarith : ¬ s < 250)]
  · unfold movements
    norm_num
  · unfold movements
    norm_num
  · intro s t hst
    unfold movements
    split_ifs <;> first | omega | linarith

/-- C4 witness: concrete evaluations via the theorem. -/
theorem C4_witness :
    movements 100 = 1 ∧ movements 200 = 2 ∧ movements 300 = 3 ∧
    movements 100 ≤ movements 200 := by
  have h := C4_movements_bands
  exact ⟨h.1 100 (by norm_num), h.2.1 200 (by norm_num) (by norm_num),
    h.2.2.1 300 (by norm_num), h.2.2.2.2.2 100 200 (by norm_num)⟩

/-- C5: for every angle and scale factor, the two motion endpoints computed
from the centre with displacement `(size/2·cos·mult, size/2·sin·mult)` are
reflections of each other through the centre:
`endpoint_plus + endpoint_minus = 2·centre`, componentwise. -/
theorem C5_endpoint_reflection (size angle mult mx my : ℝ) :
    (endpointPlus mx my (dXr size angle mult) (dYr size angle mult)).1 +
      (endpointMinus mx my (dXr size angle mult) (dYr size angle mult)).1 = 2 * mx ∧
    (endpointPlus mx my (dXr size angle mult) (dYr size angle mult)).2 +
      (endpointMinus mx my (dXr size angle mult) (dYr size angle mult)).2 = 2 * my := by
  unfold endpointPlus endpointMinus
  constructor <;> ring

/-- C2: for every valid configuration, the sample count equals
`⌊(max_speed − 2)/increment⌋ + 1`, the speed sequence starts at 2,
advances by the constant step `increment`, is strictly increasing, and its
final value is at most `max_speed`. -/
theorem C2_speed_sequence (args : GCmdArgs)
    (hms : 10 ≤ args.max_speed) (hinc : 0 < args.speed_increment) :
    nbSpeedSamples args = ⌊(args.max_speed - 2) / args.speed_increment⌋ + 1 ∧
    speedAt args 0 = 2 ∧
    (∀ i : ℕ, speedAt args (i + 1) = speedAt args i + args.speed_increment) ∧
    (∀ i j : ℕ, i < j → speedAt args i < speedAt args j) ∧
    speedAt args ((nbSpeedSamples args).toNat - 1) ≤ args.max_speed := by
  have hx : (0 : ℚ) ≤ (args.max_speed - 2) / args.speed_increment :=
    div_nonneg (by linarith) (le_of_lt hinc)
  have h1 : nbSpeedSamples args =
      ⌊(args.max_speed - 2) / args.speed_increment⌋ + 1 := by
    unfold nbSpeedSamples pyInt MIN_SPEED
    rw [if_pos (by linarith :
      (0 : ℚ) ≤ (args.max_speed - 2) / args.speed_increment + 1)]
    exact Int.floor_add_one _
  refine ⟨h1, ?_, ?_, ?_, ?_⟩
  · unfold speedAt MIN_SPEED
    simp
  · intro i
    unfold speedAt
    push_cast
    ring
  · intro i j hij
    unfold speedAt
    have hcast : (i : ℚ) < (j : ℚ) := by exact_mod_cast hij
    have := mul_lt_mul_of_pos_right hcast hinc
    linarith
  · have hk0 : 0 ≤ ⌊(args.max_speed - 2) / args.speed_increment⌋ :=
      Int.floor_nonneg.mpr hx
    have htn : (nbSpeedSamples args).toNat - 1 =
        (⌊(args.max_speed - 2) / args.speed_increment⌋).toNat := by
      rw [h1]
      omega
    rw [htn]
    unfold speedAt MIN_SPEED
    have hcast : ((⌊(args.max_speed - 2) / args.speed_increment⌋.toNat : ℕ) : ℚ)
        = ((⌊(args.max_speed - 2) / args.speed_increment⌋ : ℤ) : ℚ) := by
      exact_mod_cast congrArg (fun z : ℤ => (z : ℚ)) (Int.toNat_of_nonneg hk0)
    rw [hcast]
    have hfl : ((⌊(args.max_speed - 2) / args.speed_increment⌋ : ℤ) : ℚ) ≤
        (args.max_speed - 2) / args.speed_increment := Int.floor_le _
    have hmul := mul_le_mul_of_nonneg_right hfl (le_of_lt hinc)
    rw [div_mul_cancel₀ _ (ne_of_gt hinc)] at hmul
    linarith

/-- C2 witness: concrete instance (MAX_SPEED=10, SPEED_INCREMENT=8:
two samples at 2 and 10 mm/s). -/
theorem C2_witness :
    nbSpeedSamples okArgs = ⌊(okArgs.max_speed - 2) / okArgs.speed_increment⌋ + 1 ∧
    speedAt okArgs 0 = 2 ∧
    speedAt okArgs 1 = speedAt okArgs 0 + okArgs.speed_increment ∧
    speedAt okArgs 0 < speedAt okArgs 1 ∧
    speedAt okArgs ((nbSpeedSamples okArgs).toNat - 1) ≤ okArgs.max_speed := by
  have h := C2_speed_sequence okArgs (by norm_num [okArgs]) (by norm_num [okArgs])
  exact ⟨h.1, h.2.1, h.2.2.1 0, h.2.2.2.1 0 1 (by norm_num), h.2.2.2.2⟩

theorem length_flat_pairs {α : Type} (e1 e2 : α) :
    ∀ n : ℕ, ((List.range n).flatMap (fun _ => [e1, e2])).length = 2 * n := by
  intro n
  induction n with
  | zero => rfl
  | succ k ih =>
    rw [List.range_succ, List.flatMap_append, List.length_append, ih]
    simp
    omega

/-- C6: in every sweep execution the recording start/stop calls strictly
alternate beginning with a start, at most one recording is ever open, every
recording is closed (so the number of stop calls equals the number of start
calls), and within each speed sample the start is issued after the approach
move and before every test-speed move, while the stop follows the last
test-speed move and is itself followed by the settle dwell and the
wait-for-moves drain. -/
theorem C6_recording_bracketing (args : GCmdArgs) (p : PrinterState)
    (cosd sind : ℚ → ℚ) :
    recScan 0 (run args p cosd sind).1 = some 0 ∧
    countStarts (run args p cosd sind).1 = countStops (run args p cosd sind).1 ∧
    (∀ (mx my : ℚ) (angle : ℤ) (i : ℕ), ∃ tm : List Event,
      sampleEvents args p cosd sind mx my angle i =
        Event.move
            (mx - args.size / 2 * cosd (angle : ℚ) *
              segment_length_multiplier (speedAt args i))
            (my - args.size / 2 * sind (angle : ℚ) *
              segment_length_multiplier (speedAt args i))
            args.z_height p.posE args.feedrate_travel
          :: Event.startRecording angle (speedAt args i) true
          :: (tm ++ [Event.stopRecording, Event.dwell (3 / 10), Event.waitMoves]) ∧
      tm.length = 2 * movements (speedAt args i) ∧
      (∀ ev ∈ tm, ∃ x y : ℚ,
        ev = Event.move x y args.z_height p.posE (speedAt args i))) := by
  refine ⟨recScan_run args p cosd sind, ?_, ?_⟩
  · have h := recScan_counts (run args p cosd sind).1 0 0 (recScan_run args p cosd sind)
    omega
  · intro mx my angle i
    refine ⟨(List.range (movements (speedAt args i))).flatMap (fun _ =>
      [Event.move (mx + args.size / 2 * cosd (angle : ℚ) *
          segment_length_multiplier (speedAt args i))
        (my + args.size / 2 * sind (angle : ℚ) *
          segment_length_multiplier (speedAt args i))
        args.z_height p.posE (speedAt args i),
       Event.move (mx - args.size / 2 * cosd (angle : ℚ) *
          segment_length_multiplier (speedAt args i))
        (my - args.size / 2 * sind (angle : ℚ) *
          segment_length_multiplier (speedAt args i))
        args.z_height p.posE (speedAt args i)]), ?_, ?_, ?_⟩
    · rfl
    · exact length_flat_pairs _ _ (movements (speedAt args i))
    · intro ev hev
      rcases List.mem_flatMap.mp hev with ⟨x, _, hx⟩
      simp only [List.mem_cons, List.not_mem_nil, or_false] at hx
      rcases hx with rfl | rfl
      · exact ⟨_, _, rfl⟩
      · exact ⟨_, _, rfl⟩

/-- C6 witness: the bracketing invariant on a concrete successful run. -/
theorem C6_witness :
    recScan 0 (run okArgs okPrinter cosdFix sindFix).1 = some 0 :=
  (C6_recording_bracketing okArgs okPrinter cosdFix sindFix).1

/-- C7 (amended): the command raises the insufficient-travel-distance
validation error, with an empty effect trace (no machine state mutated, no
motion, velocity-limit, or recording command issued), exactly when
`size / (max_speed / 60) < 0.25`.  Other validation errors (missing input
shaper, unsupported kinematics) can still occur when this ratio constraint
holds. -/
theorem C7_travel_distance_validation (args : GCmdArgs) (p : PrinterState)
    (cosd sind : ℚ → ℚ) :
    run args p cosd sind = ([], some SweepError.sizeTooSmall) ↔
      args.size / (args.max_speed / 60) < 1 / 4 := by
  constructor
  · intro h
    by_contra hge
    by_cases h2 : p.hasInputShaper = false
    · rw [run_eq_noShaper args p cosd sind hge h2] at h
      simp at h
    have h2' : p.hasInputShaper = true := by
      cases hb : p.hasInputShaper
      · exact absurd hb h2
      · rfl
    cases hk : mainAngles p.kinematics with
    | none =>
      rw [run_eq_badKin args p cosd sind hge h2' hk] at h
      simp at h
    | some angles =>
      rw [run_eq_ok args p cosd sind hge h2' angles hk] at h
      cases hA : anglesTrace args p cosd sind (normChip args) (midX p) (midY p) angles with
      | mk body err =>
        rw [hA] at h
        cases err with
        | some e => simp [preEvents] at h
        | none => simp at h
  · exact run_eq_sizeErr args p cosd sind

/-- C7 witness: a degenerate configuration (SIZE=50, MAX_SPEED=12001) whose
travel-time ratio is below 0.25 fails with the size error and an empty
trace. -/
theorem C7_witness :
    run badArgs okPrinter cosdFix sindFix = ([], some SweepError.sizeTooSmall) :=
  (C7_travel_distance_validation badArgs okPrinter cosdFix sindFix).mpr
    (by norm_num [badArgs])

/-- C7 counterexample to the claim as stated: with delta kinematics and a
ratio of 30 ≥ 0.25, the command still fails with a validation error (the
unsupported-kinematics one), refuting the claimed "only if" direction. -/
theorem C7_counterexample :
    (run okArgs deltaPrinter cosdFix sindFix).2 =
        some SweepError.unsupportedKinematics ∧
    isValidationError SweepError.unsupportedKinematics = true ∧
    ¬ okArgs.size / (okArgs.max_speed / 60) < 1 / 4 := by
  refine ⟨?_, rfl, by norm_num [okArgs]⟩
  rw [run_eq_badKin okArgs deltaPrinter cosdFix sindFix
    (by norm_num [okArgs]) rfl (by decide)]

/-- C8: the principal angle list is [0, 90] for cartesian and core-xz,
[45, 135] (in that order) for core-xy, and any other kinematics family
makes the sweep fail with the unsupported-kinematics error and an empty
effect trace (no machine state touched). -/
theorem C8_kinematics_dispatch (args : GCmdArgs) (p : PrinterState)
    (cosd sind : ℚ → ℚ)
    (h1 : ¬ args.size / (args.max_speed / 60) < 1 / 4)
    (h2 : p.hasInputShaper = true) :
    mainAngles "cartesian" = some [0, 90] ∧
    mainAngles "corexz" = some [0, 90] ∧
    mainAngles "corexy" = some [45, 135] ∧
    (mainAngles p.kinematics = none →
      run args p cosd sind = ([], some SweepError.unsupportedKinematics)) :=
  ⟨by decide, by decide, by decide,
   fun hk => run_eq_badKin args p cosd sind h1 h2 hk⟩

/-- C8 witness: a delta-kinematics printer with otherwise valid inputs
aborts with the unsupported-kinematics error and an empty trace. -/
theorem C8_witness :
    run okArgs deltaPrinter cosdFix sindFix =
      ([], some SweepError.unsupportedKinematics) :=
  (C8_kinematics_dispatch okArgs deltaPrinter cosdFix sindFix
    (by norm_num [okArgs]) rfl).2.2.2 (by decide)

theorem run_snd_eq (args : GCmdArgs) (p : PrinterState) (cosd sind : ℚ → ℚ)
    (h1 : ¬ args.size / (args.max_speed / 60) < 1 / 4)
    (h2 : p.hasInputShaper = true)
    (angles : List ℤ) (hk : mainAngles p.kinematics = some angles) :
    (run args p cosd sind).2 =
      (anglesTrace args p cosd sind (normChip args) (midX p) (midY p) angles).2 := by
  rw [run_eq_ok args p cosd sind h1 h2 angles hk]
  cases anglesTrace args p cosd sind (normChip args) (midX p) (midY p) angles with
  | mk body err => cases err <;> rfl

theorem anglesTrace_ok_snd :
    (anglesTrace okArgs okPrinter cosdFix sindFix (normChip okArgs)
      (midX okPrinter) (midY okPrinter) [0, 90]).2 = none := by
  norm_num [anglesTrace, angleTrace, resolveChip, normChip, okArgs, okPrinter,
    angleToAxis]

theorem okRun_snd : (run okArgs okPrinter cosdFix sindFix).2 = none := by
  rw [run_snd_eq okArgs okPrinter cosdFix sindFix (by norm_num [okArgs]) rfl
    [0, 90] (by decide)]
  exact anglesTrace_ok_snd

theorem noChipRun_eq :
    run okArgs noChipPrinter cosdFix sindFix =
      (preEvents okArgs noChipPrinter,
       some (SweepError.accelerometerNotFound none)) := by
  rw [run_eq_ok okArgs noChipPrinter cosdFix sindFix (by norm_num [okArgs]) rfl
    [0, 90] (by decide)]
  have h : anglesTrace okArgs noChipPrinter cosdFix sindFix (normChip okArgs)
      (midX noChipPrinter) (midY noChipPrinter) [0, 90] =
      ([], some (SweepError.accelerometerNotFound none)) := by
    simp [anglesTrace, angleTrace, resolveChip, normChip, okArgs, noChipPrinter,
      okPrinter, angleToAxis]
  rw [h]
  simp

/-- C1 (amended): once the velocity-limit snapshot has been captured and
the test limits applied, the restore script runs exactly once on the normal
completion path (the trace's `SET_VELOCITY_LIMIT` scripts are exactly the
test-limit application followed by the restore); but on an abort raised
after the snapshot point, such as an accelerometer device that cannot be
found, the restore is NOT executed — the only `SET_VELOCITY_LIMIT` script
in the trace is the test-limit application. -/
theorem C1_restore_scope (args : GCmdArgs) (p : PrinterState)
    (cosd sind : ℚ → ℚ) (c : Option String) :
    ((run args p cosd sind).2 = none →
      svlEvents (run args p cosd sind).1 =
        [applyLimitsEvt args p, restoreLimitsEvt p]) ∧
    ((run args p cosd sind).2 = some (SweepError.accelerometerNotFound c) →
      svlEvents (run args p cosd sind).1 = [applyLimitsEvt args p]) :=
  ⟨svl_run_ok args p cosd sind, svl_run_accelErr args p cosd sind c⟩

/-- C1 witness: a complete successful sweep issues exactly the test-limit
script followed by the restore script. -/
theorem C1_witness :
    svlEvents (run okArgs okPrinter cosdFix sindFix).1 =
      [applyLimitsEvt okArgs okPrinter, restoreLimitsEvt okPrinter] :=
  (C1_restore_scope okArgs okPrinter cosdFix sindFix none).1 okRun_snd

/-- C1 counterexample to the claim as stated: with the accelerometer
missing, the sweep aborts after the snapshot was captured and the test
limits applied (one `SET_VELOCITY_LIMIT` script is in the trace), yet no
restore is executed — the restore does not run on this exit path. -/
theorem C1_counterexample :
    (run okArgs noChipPrinter cosdFix sindFix).2 =
        some (SweepError.accelerometerNotFound none) ∧
    svlEvents (run okArgs noChipPrinter cosdFix sindFix).1 =
      [applyLimitsEvt okArgs noChipPrinter] ∧
    countSVL (run okArgs noChipPrinter cosdFix sindFix).1 = 1 := by
  refine ⟨by rw [noChipRun_eq], ?_, ?_⟩
  · rw [noChipRun_eq]
    exact svlEvents_preEvents okArgs noChipPrinter
  · rw [noChipRun_eq]
    rfl

/-- C9: if `minimum_cruise_ratio` is absent from the status snapshot, no
`SET_VELOCITY_LIMIT` script of any exit path ever carries a cruise-ratio
value; if it is present with value `mval`, the test-limit script sets it to
0 and the restore script restores `mval` verbatim, while acceleration and
square-corner velocity are applied and restored in both cases. -/
theorem C9_cruise_ratio_conditional (args : GCmdArgs) (p : PrinterState)
    (cosd sind : ℚ → ℚ) :
    (p.mcr = none → ∀ (a : ℚ) (m : Option ℚ) (q : ℚ),
      Event.setVelocityLimit a m q ∈ (run args p cosd sind).1 → m = none) ∧
    (∀ mval : ℚ, p.mcr = some mval → (run args p cosd sind).2 = none →
      svlEvents (run args p cosd sind).1 =
        [Event.setVelocityLimit (args.accel : ℚ) (some 0) 5,
         Event.setVelocityLimit p.max_accel (some mval) p.square_corner_velocity]) ∧
    (p.mcr = none → (run args p cosd sind).2 = none →
      svlEvents (run args p cosd sind).1 =
        [Event.setVelocityLimit (args.accel : ℚ) none 5,
         Event.setVelocityLimit p.max_accel none p.square_corner_velocity]) := by
  refine ⟨?_, ?_, ?_⟩
  · intro hmcr a m q hmem
    have hin := mem_svlEvents _ a m q hmem
    rcases svl_run_cases args p cosd sind with h | h | h <;> rw [h] at hin
    · cases hin
    · simp only [List.mem_cons, List.not_mem_nil, or_false] at hin
      simp [applyLimitsEvt, hmcr] at hin
      exact hin.2.1
    · simp only [List.mem_cons, List.not_mem_nil, or_false] at hin
      rcases hin with hin | hin
      · simp [applyLimitsEvt, hmcr] at hin
        exact hin.2.1
      · simp [restoreLimitsEvt, hmcr] at hin
        exact hin.2.1
  · intro mval hm hnone
    rw [svl_run_ok args p cosd sind hnone]
    simp [applyLimitsEvt, restoreLimitsEvt, hm]
  · intro hmcr hnone
    rw [svl_run_ok args p cosd sind hnone]
    simp [applyLimitsEvt, restoreLimitsEvt, hmcr]

/-- C9 witness: on the concrete printer exposing `minimum_cruise_ratio` at
1/2, a successful sweep sets it to 0 for the test and restores 1/2
verbatim, together with the snapshotted acceleration and square-corner
velocity. -/
theorem C9_witness :
    svlEvents (run okArgs okPrinter cosdFix sindFix).1 =
      [Event.setVelocityLimit (okArgs.accel : ℚ) (some 0) 5,
       Event.setVelocityLimit okPrinter.max_accel (some (1 / 2))
         okPrinter.square_corner_velocity] :=
  (C9_cruise_ratio_conditional okArgs okPrinter cosdFix sindFix).2.1
    (1 / 2) rfl okRun_snd

/-- C10: every toolhead move issued by the command keeps the Z coordinate
at `z_height` and the extruder coordinate at the `E` read at the start;
only X and Y vary across approach and test moves. -/
theorem C10_z_e_frame (args : GCmdArgs) (p : PrinterState)
    (cosd sind : ℚ → ℚ) (x y z e fr : ℚ)
    (h : Event.move x y z e fr ∈ (run args p cosd sind).1) :
    z = args.z_height ∧ e = p.posE := by
  have hm := moveFixed_run args p cosd sind _ h
  simp only [moveFixed, decide_eq_true_eq] at hm
  exact hm

/-- C10 witness: the initial raise move of a concrete run has Z = 20 =
Z_HEIGHT and E = 1, the extruder value read at the start. -/
theorem C10_witness :
    (20 : ℚ) = okArgs.z_height ∧ (1 : ℚ) = noChipPrinter.posE := by
  refine C10_z_e_frame okArgs noChipPrinter cosdFix sindFix 10 10 20 1 12 ?_
  rw [noChipRun_eq]
  norm_num [preEvents, okArgs, noChipPrinter, okPrinter, applyLimitsEvt,
    midX, midY]
